import Mathlib

/-! Todo App (src/App.js): shallow embedding of the task-list view-controller.

The React component `App` owns five state cells (`tasks`, `taskText`,
`taskDescription`, `editingTask`, `successMessage`) and five async functions
(`fetchTasks`, `addTask`, `deleteTask`, `updateTask`, `deleteAllTasks`).

Each async function has exactly one `await`, on an axios call.  It is embedded as
two programs of the monad `Js`: the part that runs synchronously when the function
is called (up to and including issuing the request) and the part that runs when the
awaited promise settles (the rest of the `try` block, or the `catch` block).
The runtime around the component (in-flight requests, pending timers, a millisecond
clock and a log of observable effects) is explicit in `World`.

Modelling choices:
* a handler reads the state cells of the render it was created in; events are
  discrete, so that is the state at the time of the event;
* requests settle in any order, one per `settle` event, with any outcome;
* timers are ideal: a callback runs in the turn in which the clock reaches its
  deadline, never earlier and never later;
* a task is the record of the data model (`id`, `title`, `description`,
  `completed`) with `title` and `description` strings; `id` is any JavaScript value
  the component can tell apart (it only tests it for truthiness and prints it),
  numbers being the safe integers;
* unmounting is not modelled.
-/

namespace TodoApp

/-! ## JavaScript values -/

/-- A JavaScript value as far as this component inspects one: the value of `task.id`
and of the `editingTask` cell.  A number is a safe integer, given by its sign and its
magnitude below 2^53: each of these is exactly one double, and `num true 0` is the
negative zero. -/
inductive JsVal where
  | undefined
  | null
  | bool (b : Bool)
  | num (negative : Bool) (magnitude : Fin 9007199254740992)
  | str (s : String)
  | object
  deriving DecidableEq, Repr

/-- ECMAScript `ToBoolean`, used by `editingTask ? ... : ...`. -/
def JsVal.truthy : JsVal → Bool
  | .undefined => false
  | .null => false
  | .bool b => b
  | .num _ magnitude => magnitude.val != 0
  | .str s => s != ""
  | .object => true

/-- ECMAScript `ToString`, used by the template literal that builds the item URL.
A safe integer prints as its decimal numeral (the exponent form starts at 10^21,
beyond the safe integers), with a minus sign when negative; both zeros print "0". -/
def JsVal.toStr : JsVal → String
  | .undefined => "undefined"
  | .null => "null"
  | .bool true => "true"
  | .bool false => "false"
  | .num negative magnitude =>
      if negative && magnitude.val != 0 then "-" ++ toString magnitude.val
      else toString magnitude.val
  | .str s => s
  | .object => "[object Object]"

/-- ECMAScript WhiteSpace and LineTerminator code points: what `String.prototype.trim`
removes. -/
def isJsWhiteSpace (c : Char) : Bool :=
  let n := c.toNat
  n == 0x9 || n == 0xA || n == 0xB || n == 0xC || n == 0xD || n == 0x20 || n == 0xA0
    || n == 0x1680 || (0x2000 ≤ n && n ≤ 0x200A) || n == 0x2028 || n == 0x2029
    || n == 0x202F || n == 0x205F || n == 0x3000 || n == 0xFEFF

/-- The method `String.prototype.trim`: drop white space from both ends.  Every white
space character is in the basic multilingual plane, so trimming code points and
trimming UTF-16 code units agree. -/
def jsTrim (s : String) : String :=
  String.mk ((s.toList.dropWhile isJsWhiteSpace).reverse.dropWhile isJsWhiteSpace).reverse

/-! ## Data model -/

/-- One element of the array the server returns. -/
structure Task where
  id : JsVal
  title : String
  description : String
  completed : Bool
  deriving DecidableEq, Repr

/-- The `data` of an axios response.  `Array.isArray(response.data)` holds for `array`
and fails for `other`. -/
inductive ResponseData where
  | array (items : List Task)
  | other (value : JsVal)
  deriving DecidableEq, Repr

/-- How an awaited axios promise settles. -/
inductive Awaited where
  | resolved (data : ResponseData)
  | rejected
  deriving DecidableEq, Repr

/-- The HTTP methods axios is called with. -/
inductive Method where
  | GET | POST | PUT | DELETE
  deriving DecidableEq, Repr

/-- An HTTP request as axios is asked to send it; `body` lists the fields of the
object literal passed as request data, in source order. -/
structure Request where
  method : Method
  url : String
  body : Option (List (String × JsVal))
  deriving DecidableEq, Repr

/-- The constant `apiUrl` (App.js line 12). -/
def apiUrl : String := "https://backend-assignment-zw78.onrender.com/api/todos"

/-- An activation of one of the async functions, suspended at its `await`.  The
arguments are the values captured when the request was built. -/
inductive Call where
  | fetchTasks
  | addTask (taskText taskDescription : String)
  | deleteTask (taskId : JsVal)
  | updateTask (taskId : JsVal) (taskText taskDescription : String)
  | deleteAllTasks
  deriving DecidableEq, Repr

/-- The axios call each function awaits. -/
def Call.request : Call → Request
  | .fetchTasks => ⟨.GET, apiUrl, none⟩
  | .addTask taskText taskDescription =>
      ⟨.POST, apiUrl,
        some [("title", .str taskText), ("description", .str taskDescription),
              ("completed", .bool false)]⟩
  | .deleteTask taskId => ⟨.DELETE, apiUrl ++ "/" ++ taskId.toStr, none⟩
  | .updateTask taskId taskText taskDescription =>
      ⟨.PUT, apiUrl ++ "/" ++ taskId.toStr,
        some [("title", .str taskText), ("description", .str taskDescription)]⟩
  | .deleteAllTasks => ⟨.DELETE, apiUrl ++ "/all", none⟩

/-- Observable effects, in the order they happen. -/
inductive Effect where
  | send (request : Request)
  | setTimeout (delay : Nat)
  | consoleError (message : String)
  deriving DecidableEq, Repr

/-- The five `useState` cells (App.js lines 6-10). -/
structure UIState where
  tasks : List Task
  taskText : String
  taskDescription : String
  editingTask : JsVal
  successMessage : String
  deriving DecidableEq, Repr

/-- The component together with the runtime around it. -/
structure World where
  ui : UIState
  /-- Suspended async functions, oldest first. -/
  inflight : List Call
  /-- Deadlines (ms) of the pending `setTimeout(() => setSuccessMessage(""), 3000)`. -/
  timers : List Nat
  /-- Milliseconds elapsed since first render. -/
  now : Nat
  /-- Everything the component did to the outside, oldest first. -/
  log : List Effect
  /-- Exceptions that escaped an async function (rejections nobody handles). -/
  unhandled : List String
  deriving DecidableEq, Repr

/-- The state on first render: the `useState` initial values, nothing in flight. -/
def World.initial : World :=
  { ui := { tasks := [], taskText := "", taskDescription := "", editingTask := .null,
            successMessage := "" },
    inflight := [], timers := [], now := 0, log := [], unhandled := [] }

/-! ## The monad of handler code -/

/-- Handler code: it may throw, and state changes made before a throw persist. -/
abbrev Js := ExceptT String (StateM World)

/-- The five state setters returned by `useState`. -/
def setTasks (v : List Task) : Js Unit :=
  modify fun w => { w with ui := { w.ui with tasks := v } }

def setTaskText (v : String) : Js Unit :=
  modify fun w => { w with ui := { w.ui with taskText := v } }

def setTaskDescription (v : String) : Js Unit :=
  modify fun w => { w with ui := { w.ui with taskDescription := v } }

def setEditingTask (v : JsVal) : Js Unit :=
  modify fun w => { w with ui := { w.ui with editingTask := v } }

def setSuccessMessage (v : String) : Js Unit :=
  modify fun w => { w with ui := { w.ui with successMessage := v } }

/-- The call `console.error(message, ...)`. -/
def consoleError (message : String) : Js Unit :=
  modify fun w => { w with log := w.log ++ [.consoleError message] }

/-- The call `setTimeout(() => setSuccessMessage(""), delay)`: the only timer of the app. -/
def setTimeout (delay : Nat) : Js Unit :=
  modify fun w =>
    { w with timers := w.timers ++ [w.now + delay], log := w.log ++ [.setTimeout delay] }

/-- Reaching `await axios.<method>(...)`: the request goes out and the function
suspends. -/
def suspend (c : Call) : Js Unit :=
  modify fun w => { w with inflight := w.inflight ++ [c], log := w.log ++ [.send c.request] }

/-- Resuming from `await`: the response, or the rejection thrown at the `await`. -/
def resumeWith : Awaited → Js ResponseData
  | .resolved data => pure data
  | .rejected => throw "request failed"

/-! ## The async functions of App.js -/

/-- The function `fetchTasks` (lines 16-30) up to its `await axios.get(apiUrl)`. -/
def fetchTasks : Js Unit :=
  suspend .fetchTasks

/-- The function `fetchTasks` from its `await` on. -/
def fetchTasksResume (a : Awaited) : Js Unit :=
  try
    let data ← resumeWith a
    match data with
    | .array items =>
        setTasks items
    | .other _ =>
        consoleError "Fetched tasks are not in expected array format"
        setTasks []
  catch _ =>
    consoleError "Error fetching tasks"
    setTasks []

/-- The function `addTask` (lines 36-54) up to its `await axios.post(...)`. -/
def addTask : Js Unit := do
  let w ← get
  if jsTrim w.ui.taskText = "" then
    return
  suspend (.addTask w.ui.taskText w.ui.taskDescription)

/-- The function `addTask` from its `await` on. -/
def addTaskResume (a : Awaited) : Js Unit :=
  try
    let _ ← resumeWith a
    setTaskText ""
    setTaskDescription ""
    setSuccessMessage "Task added successfully!"
    fetchTasks
    setTimeout 3000
  catch _ =>
    consoleError "Error adding task"

/-- The function `deleteTask` (lines 56-63) up to its `await axios.delete(...)`. -/
def deleteTask (taskId : JsVal) : Js Unit :=
  suspend (.deleteTask taskId)

/-- The function `deleteTask` from its `await` on. -/
def deleteTaskResume (a : Awaited) : Js Unit :=
  try
    let _ ← resumeWith a
    fetchTasks
  catch _ =>
    consoleError "Error deleting task"

/-- The function `updateTask` (lines 65-78) up to its `await axios.put(...)`. -/
def updateTask (taskId : JsVal) : Js Unit := do
  let w ← get
  suspend (.updateTask taskId w.ui.taskText w.ui.taskDescription)

/-- The function `updateTask` from its `await` on. -/
def updateTaskResume (a : Awaited) : Js Unit :=
  try
    let _ ← resumeWith a
    setEditingTask .null
    setTaskText ""
    setTaskDescription ""
    fetchTasks
  catch _ =>
    consoleError "Error updating task"

/-- The function `deleteAllTasks` (lines 80-87) up to its `await axios.delete(...)`. -/
def deleteAllTasks : Js Unit :=
  suspend .deleteAllTasks

/-- The function `deleteAllTasks` from its `await` on. -/
def deleteAllTasksResume (a : Awaited) : Js Unit :=
  try
    let _ ← resumeWith a
    fetchTasks
  catch _ =>
    consoleError "Error deleting all tasks"

/-- The rest of a suspended function. -/
def Call.resume : Call → Awaited → Js Unit
  | .fetchTasks => fetchTasksResume
  | .addTask _ _ => addTaskResume
  | .deleteTask _ => deleteTaskResume
  | .updateTask _ _ _ => updateTaskResume
  | .deleteAllTasks => deleteAllTasksResume

/-! ## Event handlers of the rendered tree -/

/-- The submit button: `onClick={editingTask ? () => updateTask(editingTask) : addTask}`
(line 113). -/
def onSubmit : Js Unit := do
  let w ← get
  if w.ui.editingTask.truthy then
    updateTask w.ui.editingTask
  else
    addTask

/-- The Edit button of a task (lines 131-135). -/
def onEdit (task : Task) : Js Unit := do
  setEditingTask task.id
  setTaskText task.title
  setTaskDescription task.description

/-- The Delete button of a task (line 142). -/
def onDelete (task : Task) : Js Unit :=
  deleteTask task.id

/-! ## The event loop -/

/-- Run a piece of handler code to completion.  An exception that escapes it is
recorded as unhandled. -/
def World.exec (w : World) (m : Js Unit) : World :=
  match (ExceptT.run m).run w with
  | (.ok _, w') => w'
  | (.error e, w') => { w' with unhandled := w'.unhandled ++ [e] }

/-- The clock moves on by `ms` milliseconds; every timer whose deadline is reached
runs its callback `() => setSuccessMessage("")` and is gone.  Timers are ideal: none
fires before its deadline and none is late. -/
def World.advance (w : World) (ms : Nat) : World :=
  let now := w.now + ms
  let due := w.timers.filter (fun d => decide (d ≤ now))
  let w' := { w with now := now, timers := w.timers.filter (fun d => !decide (d ≤ now)) }
  due.foldl (fun acc _ => acc.exec (setSuccessMessage "")) w'

/-- What can happen to the mounted component. -/
inductive Event where
  /-- The mount effect `useEffect(() => { fetchTasks(); }, [fetchTasks])`. -/
  | mount
  /-- The `onChange` of the title input. -/
  | changeTitle (value : String)
  /-- The `onChange` of the description input. -/
  | changeDescription (value : String)
  | clickSubmit
  /-- Edit button of the task rendered at `index`. -/
  | clickEdit (index : Nat)
  /-- Delete button of the task rendered at `index`. -/
  | clickDelete (index : Nat)
  | clickDeleteAll
  /-- The request of the suspended call at `index` settles. -/
  | settle (index : Nat) (result : Awaited)
  /-- Time passes. -/
  | advance (ms : Nat)
  deriving DecidableEq, Repr

/-- One turn of the event loop. -/
def World.step (w : World) : Event → World
  | .mount => w.exec fetchTasks
  | .changeTitle value => w.exec (setTaskText value)
  | .changeDescription value => w.exec (setTaskDescription value)
  | .clickSubmit => w.exec onSubmit
  | .clickEdit index =>
      match w.ui.tasks.get? index with
      | some task => w.exec (onEdit task)
      | none => w
  | .clickDelete index =>
      match w.ui.tasks.get? index with
      | some task => w.exec (onDelete task)
      | none => w
  | .clickDeleteAll => w.exec deleteAllTasks
  | .settle index result =>
      match w.inflight.get? index with
      | some call => { w with inflight := w.inflight.eraseIdx index }.exec (call.resume result)
      | none => w
  | .advance ms => w.advance ms

/-- Run a sequence of events. -/
def World.run (w : World) (events : List Event) : World :=
  events.foldl World.step w

/-- The requests among a list of effects, in order. -/
def sentIn (log : List Effect) : List Request :=
  log.filterMap fun
    | .send request => some request
    | _ => none

/-- Every request the component has sent so far, oldest first. -/
def World.sent (w : World) : List Request :=
  sentIn w.log

/-! ## The list responses seen so far (for the task-collection invariant) -/

/-- The outcome of `fetchTasks`, if the event is the settling of its GET. -/
def listCompletion (w : World) : Event → Option Awaited
  | .settle index result =>
      if w.inflight.get? index = some .fetchTasks then some result else none
  | _ => none

/-- The task list a settled GET stands for: its data when that is an array, the
empty list when it is not an array or the request failed. -/
def responseTasks : Awaited → List Task
  | .resolved (.array items) => items
  | _ => []

/-- The task list of the most recent settled GET along a run of events from `w`, or
`held` when no GET settled. -/
def lastListed : World → List Event → List Task → List Task
  | _, [], held => held
  | w, e :: events, held =>
      lastListed (w.step e) events
        (match listCompletion w e with
          | some result => responseTasks result
          | none => held)

/-! ## Unfolding the handlers -/

theorem exec_suspend (w : World) (c : Call) :
    w.exec (suspend c) =
      { w with inflight := w.inflight ++ [c], log := w.log ++ [.send c.request] } := rfl

theorem exec_addTask (w : World) :
    w.exec addTask =
      if jsTrim w.ui.taskText = "" then w
      else w.exec (suspend (.addTask w.ui.taskText w.ui.taskDescription)) := by
  show World.exec w (if jsTrim w.ui.taskText = "" then pure ()
    else suspend (.addTask w.ui.taskText w.ui.taskDescription)) = _
  split <;> rfl

theorem exec_onSubmit (w : World) :
    w.exec onSubmit =
      if w.ui.editingTask.truthy = true then w.exec (updateTask w.ui.editingTask)
      else w.exec addTask := by
  show World.exec w (if w.ui.editingTask.truthy = true then updateTask w.ui.editingTask
    else addTask) = _
  split <;> rfl

theorem run_cons (w : World) (e : Event) (events : List Event) :
    w.run (e :: events) = (w.step e).run events := rfl

theorem sent_append (xs ys : List Effect) : sentIn (xs ++ ys) = sentIn xs ++ sentIn ys := by
  simp [sentIn, List.filterMap_append]

theorem confirmation_ne_empty : "Task added successfully!" ≠ "" := by decide

/-- A title trims to the empty string exactly when it is empty or all white space. -/
theorem jsTrim_eq_empty_iff (s : String) :
    jsTrim s = "" ↔ ∀ c ∈ s.toList, isJsWhiteSpace c = true := by
  unfold jsTrim
  have hmk : ∀ l : List Char, String.mk l = "" ↔ l = [] := by
    intro l
    constructor
    · intro h
      have := congrArg String.data h
      simpa using this
    · rintro rfl; rfl
  rw [hmk, List.reverse_eq_nil_iff, List.dropWhile_eq_nil_iff]
  constructor
  · intro h
    have hnil : s.toList.dropWhile isJsWhiteSpace = [] := by
      cases hd : s.toList.dropWhile isJsWhiteSpace with
      | nil => rfl
      | cons x xs =>
          have hx : isJsWhiteSpace x = true := h x (by rw [hd]; simp)
          have hhead := List.head_dropWhile_not isJsWhiteSpace s.toList (by rw [hd]; simp)
          simp only [hd, List.head_cons] at hhead
          rw [hx] at hhead
          exact absurd hhead (by decide)
    exact List.dropWhile_eq_nil_iff.mp hnil
  · intro h
    rw [List.dropWhile_eq_nil_iff.mpr h]
    intro c hc
    simp at hc

/-- A settle event aimed at the call that was suspended last resumes that call. -/
theorem settle_last (w : World) (c : Call) (a : Awaited) :
    ({ w with inflight := w.inflight ++ [c] } : World).step (.settle w.inflight.length a) =
      w.exec (c.resume a) := by
  have herase : (w.inflight ++ [c]).eraseIdx w.inflight.length = w.inflight := by
    induction w.inflight with
    | nil => rfl
    | cons x xs ih => simp only [List.cons_append, List.length_cons, List.eraseIdx_cons_succ, ih]
  simp [World.step, herase]

/-- A call is made and its request settles before anything else happens. -/
theorem suspend_then_settle (w : World) (c : Call) (a : Awaited) :
    (w.exec (suspend c)).step (.settle w.inflight.length a) =
      ({ w with log := w.log ++ [.send c.request] } : World).exec (c.resume a) :=
  settle_last { w with log := w.log ++ [.send c.request] } c a

/-- A settle event aimed past the end of the queue does nothing. -/
theorem settle_none (w : World) (a : Awaited) :
    w.step (.settle w.inflight.length a) = w := by
  simp [World.step]

/-- The POST of `addTask`, suspended at `index`, resolves. -/
theorem settle_addTask (w : World) (index : Nat) (title description : String)
    (data : ResponseData) (hi : w.inflight.get? index = some (.addTask title description)) :
    w.step (.settle index (.resolved data)) =
      { w with
        ui := { w.ui with taskText := "", taskDescription := "",
                           successMessage := "Task added successfully!" },
        inflight := w.inflight.eraseIdx index ++ [.fetchTasks],
        timers := w.timers ++ [w.now + 3000],
        log := w.log ++ [.send ⟨.GET, apiUrl, none⟩] ++ [.setTimeout 3000] } := by
  simp only [World.step, hi]
  rfl

/-! ## Frame lemmas for the event loop -/

theorem clear_due (due : List Nat) (w : World) :
    due.foldl (fun acc _ => acc.exec (setSuccessMessage "")) w =
      if due = [] then w else { w with ui := { w.ui with successMessage := "" } } := by
  induction due generalizing w with
  | nil => rfl
  | cons d rest ih =>
      rw [List.foldl_cons, ih, if_neg (List.cons_ne_nil d rest)]
      split <;> rfl

theorem advance_eq (w : World) (ms : Nat) :
    w.advance ms =
      if w.timers.filter (fun d => decide (d ≤ w.now + ms)) = [] then
        { w with now := w.now + ms,
                 timers := w.timers.filter (fun d => !decide (d ≤ w.now + ms)) }
      else
        { w with now := w.now + ms,
                 timers := w.timers.filter (fun d => !decide (d ≤ w.now + ms)),
                 ui := { w.ui with successMessage := "" } } := by
  unfold World.advance
  exact clear_due _ _

/-- What resuming any suspended call can do to the clock, the timers, the success
message and the task list. -/
theorem resume_frame (w : World) (c : Call) (a : Awaited) :
    (w.exec (c.resume a)).now = w.now ∧
    ((w.exec (c.resume a)).timers = w.timers ∧
        (w.exec (c.resume a)).ui.successMessage = w.ui.successMessage ∨
      (w.exec (c.resume a)).timers = w.timers ++ [w.now + 3000] ∧
        (w.exec (c.resume a)).ui.successMessage = "Task added successfully!") ∧
    (w.exec (c.resume a)).ui.tasks =
      (match c with
        | .fetchTasks => responseTasks a
        | _ => w.ui.tasks) := by
  cases c <;> rcases a with ⟨_ | _⟩ | _ <;>
    exact ⟨rfl, by first | exact Or.inl ⟨rfl, rfl⟩ | exact Or.inr ⟨rfl, rfl⟩, rfl⟩

/-- What one turn of the event loop other than the passing of time can do to the
clock, the timers and the success message. -/
theorem step_frame (w : World) (e : Event) (h : ∀ ms, e ≠ .advance ms) :
    (w.step e).now = w.now ∧
    ((w.step e).timers = w.timers ∧ (w.step e).ui.successMessage = w.ui.successMessage ∨
      (w.step e).timers = w.timers ++ [w.now + 3000] ∧
        (w.step e).ui.successMessage = "Task added successfully!") := by
  cases e with
  | mount => exact ⟨rfl, Or.inl ⟨rfl, rfl⟩⟩
  | changeTitle _ => exact ⟨rfl, Or.inl ⟨rfl, rfl⟩⟩
  | changeDescription _ => exact ⟨rfl, Or.inl ⟨rfl, rfl⟩⟩
  | clickSubmit =>
      have hstep : w.step .clickSubmit = w.exec onSubmit := rfl
      rw [hstep, exec_onSubmit]
      split
      · exact ⟨rfl, Or.inl ⟨rfl, rfl⟩⟩
      · rw [exec_addTask]
        split <;> exact ⟨rfl, Or.inl ⟨rfl, rfl⟩⟩
  | clickEdit index =>
      simp only [World.step]
      cases w.ui.tasks.get? index <;> exact ⟨rfl, Or.inl ⟨rfl, rfl⟩⟩
  | clickDelete index =>
      simp only [World.step]
      cases w.ui.tasks.get? index <;> exact ⟨rfl, Or.inl ⟨rfl, rfl⟩⟩
  | clickDeleteAll => exact ⟨rfl, Or.inl ⟨rfl, rfl⟩⟩
  | settle index a =>
      simp only [World.step]
      cases w.inflight.get? index with
      | none => exact ⟨rfl, Or.inl ⟨rfl, rfl⟩⟩
      | some c =>
          have hf := resume_frame { w with inflight := w.inflight.eraseIdx index } c a
          exact ⟨hf.1, hf.2.1⟩
  | advance ms => exact absurd rfl (h ms)

/-- The task list after one turn of the event loop. -/
theorem step_tasks (w : World) (e : Event) :
    (w.step e).ui.tasks =
      (match listCompletion w e with
        | some result => responseTasks result
        | none => w.ui.tasks) := by
  cases e with
  | mount => rfl
  | changeTitle _ => rfl
  | changeDescription _ => rfl
  | clickSubmit =>
      show (w.exec onSubmit).ui.tasks = _
      rw [exec_onSubmit]
      split
      · rfl
      · rw [exec_addTask]
        split <;> rfl
  | clickEdit index =>
      simp only [World.step, listCompletion]
      cases w.ui.tasks.get? index <;> rfl
  | clickDelete index =>
      simp only [World.step, listCompletion]
      cases w.ui.tasks.get? index <;> rfl
  | clickDeleteAll => rfl
  | settle index a =>
      simp only [World.step, listCompletion]
      cases hget : w.inflight.get? index with
      | none => simp
      | some c =>
          have hf := (resume_frame { w with inflight := w.inflight.eraseIdx index } c a).2.2
          cases c <;> simpa using hf
  | advance ms =>
      show (w.advance ms).ui.tasks = _
      rw [advance_eq]
      split <;> rfl

theorem run_tasks (events : List Event) (w : World) :
    (w.run events).ui.tasks = lastListed w events w.ui.tasks := by
  induction events generalizing w with
  | nil => rfl
  | cons e events ih =>
      rw [run_cons, ih, step_tasks]
      rfl

/-! ## The clock and the timers -/

theorem step_now_le (w : World) (e : Event) : w.now ≤ (w.step e).now := by
  by_cases h : ∀ ms, e ≠ .advance ms
  · exact le_of_eq (step_frame w e h).1.symm
  · push_neg at h
    obtain ⟨ms, rfl⟩ := h
    show w.now ≤ (w.advance ms).now
    rw [advance_eq]
    split <;> exact Nat.le_add_right _ _

theorem run_now_le (events : List Event) (w : World) : w.now ≤ (w.run events).now := by
  induction events generalizing w with
  | nil => exact le_refl _
  | cons e events ih =>
      rw [run_cons]
      exact le_trans (step_now_le w e) (ih _)

/-- A pending timer stays pending until the clock reaches its deadline: nothing
cancels it. -/
theorem step_keeps_timer (D : Nat) (w : World) (e : Event) (hD : D ∈ w.timers)
    (hnow : (w.step e).now < D) : D ∈ (w.step e).timers := by
  by_cases h : ∀ ms, e ≠ .advance ms
  · rcases (step_frame w e h).2 with ⟨ht, _⟩ | ⟨ht, _⟩
    · rw [ht]; exact hD
    · rw [ht]; exact List.mem_append_left _ hD
  · push_neg at h
    obtain ⟨ms, rfl⟩ := h
    have hstep : w.step (.advance ms) = w.advance ms := rfl
    rw [hstep, advance_eq] at hnow ⊢
    have hlt : ¬ D ≤ w.now + ms := by
      split at hnow <;> exact not_le.mpr hnow
    have hmem : D ∈ w.timers.filter (fun d => !decide (d ≤ w.now + ms)) := by
      rw [List.mem_filter]
      exact ⟨hD, by simp [hlt]⟩
    split <;> exact hmem

theorem run_keeps_timer (D : Nat) (events : List Event) (w : World) (hD : D ∈ w.timers)
    (hnow : (w.run events).now < D) : D ∈ (w.run events).timers := by
  induction events generalizing w with
  | nil => exact hD
  | cons e events ih =>
      rw [run_cons] at hnow ⊢
      exact ih _ (step_keeps_timer D w e hD (lt_of_le_of_lt (run_now_le events _) hnow)) hnow

/-- While every pending timer is due at `D` or later and any new one would be too,
the success message, once set, stays set until the clock reaches `D`. -/
theorem step_keeps_message (D : Nat) (w : World) (e : Event)
    (hmsg : w.ui.successMessage ≠ "") (htim : ∀ d ∈ w.timers, D ≤ d)
    (hnew : D ≤ w.now + 3000) (hnow : (w.step e).now < D) :
    (w.step e).ui.successMessage ≠ "" ∧ (∀ d ∈ (w.step e).timers, D ≤ d) ∧
      D ≤ (w.step e).now + 3000 := by
  by_cases h : ∀ ms, e ≠ .advance ms
  · obtain ⟨hn, hcase⟩ := step_frame w e h
    rcases hcase with ⟨ht, hm⟩ | ⟨ht, hm⟩
    · rw [ht, hm, hn]; exact ⟨hmsg, htim, hnew⟩
    · rw [ht, hm, hn]
      refine ⟨confirmation_ne_empty, fun d hd => ?_, hnew⟩
      rcases List.mem_append.mp hd with hd | hd
      · exact htim d hd
      · rw [List.mem_singleton.mp hd]; exact hnew
  · push_neg at h
    obtain ⟨ms, rfl⟩ := h
    have hstep : w.step (.advance ms) = w.advance ms := rfl
    rw [hstep, advance_eq] at hnow ⊢
    have hlt : w.now + ms < D := by
      split at hnow <;> exact hnow
    have hnone : w.timers.filter (fun d => decide (d ≤ w.now + ms)) = [] := by
      rw [List.filter_eq_nil_iff]
      intro d hd
      have := htim d hd
      simp only [decide_eq_true_eq, not_le]
      omega
    rw [if_pos hnone]
    refine ⟨hmsg, fun d hd => htim d (List.mem_filter.mp hd).1, ?_⟩
    show D ≤ w.now + ms + 3000
    omega

theorem run_keeps_message (D : Nat) (events : List Event) (w : World)
    (hmsg : w.ui.successMessage ≠ "") (htim : ∀ d ∈ w.timers, D ≤ d)
    (hnew : D ≤ w.now + 3000) (hnow : (w.run events).now < D) :
    (w.run events).ui.successMessage ≠ "" := by
  induction events generalizing w with
  | nil => exact hmsg
  | cons e events ih =>
      rw [run_cons] at hnow ⊢
      obtain ⟨h1, h2, h3⟩ := step_keeps_message D w e hmsg htim hnew
        (lt_of_le_of_lt (run_now_le events _) hnow)
      exact ih _ h1 h2 h3 hnow

/-- When the clock reaches the deadline of a pending timer, the success message is
empty after that turn. -/
theorem advance_clears (D : Nat) (w : World) (ms : Nat) (hD : D ∈ w.timers)
    (hreach : D ≤ w.now + ms) : (w.advance ms).ui.successMessage = "" := by
  rw [advance_eq]
  have hne : w.timers.filter (fun d => decide (d ≤ w.now + ms)) ≠ [] := by
    intro hnil
    rw [List.filter_eq_nil_iff] at hnil
    exact hnil D hD (by simpa using hreach)
  rw [if_neg hne]

/-- After the Edit button of a task whose id is truthy, submit calls `updateTask` with
that id and sends the inputs as they are at that moment; with the marker `null`,
submit is `addTask`. -/
theorem submit_routing (w : World) (task : Task) (title description : String)
    (h : task.id.truthy = true) :
    ((((w.exec (onEdit task)).exec (setTaskText title)).exec
        (setTaskDescription description)).exec onSubmit).log =
      w.log ++ [.send ⟨.PUT, apiUrl ++ "/" ++ task.id.toStr,
        some [("title", .str title), ("description", .str description)]⟩] ∧
    ((w.exec (onEdit task)).exec onSubmit).log =
      w.log ++ [.send ⟨.PUT, apiUrl ++ "/" ++ task.id.toStr,
        some [("title", .str task.title), ("description", .str task.description)]⟩] ∧
    (w.ui.editingTask = .null → w.exec onSubmit = w.exec addTask) := by
  refine ⟨?_, ?_, fun hn => ?_⟩
  · rw [exec_onSubmit, if_pos (by exact h)]; rfl
  · rw [exec_onSubmit, if_pos (by exact h)]; rfl
  · rw [exec_onSubmit, if_neg (by rw [hn]; decide)]

/-! ## The claims -/

/-- Claim C1: when the GET of `fetchTasks` settles, the task collection becomes the
response data if that is an array and the empty list if it is not or if the request
failed; the other four state cells, the timers and the in-flight requests are as
before, and no exception leaves `fetchTasks`. -/
theorem fetchTasks_settled :
    (∀ (w : World) (items : List Task),
      w.exec (fetchTasksResume (.resolved (.array items))) =
        { w with ui := { w.ui with tasks := items } }) ∧
    (∀ (w : World) (v : JsVal),
      w.exec (fetchTasksResume (.resolved (.other v))) =
        { w with ui := { w.ui with tasks := [] },
                 log := w.log ++
                   [.consoleError "Fetched tasks are not in expected array format"] }) ∧
    (∀ w : World,
      w.exec (fetchTasksResume .rejected) =
        { w with ui := { w.ui with tasks := [] },
                 log := w.log ++ [.consoleError "Error fetching tasks"] }) ∧
    (∀ (w : World) (a : Awaited),
      ((ExceptT.run (fetchTasksResume a)).run w).1 = .ok () ∧
      (w.exec (fetchTasksResume a)).unhandled = w.unhandled) :=
  ⟨fun _ _ => rfl, fun _ _ => rfl, fun _ => rfl, fun w a => by
    rcases a with ⟨_ | _⟩ | _ <;> exact ⟨rfl, rfl⟩⟩

/-- Claim C2: `addTask` with a title that trims to the empty string (the empty string
or white space only) does nothing at all: no request, no timer, no log entry, every
state cell as before. -/
theorem addTask_blank_title (w : World) (h : jsTrim w.ui.taskText = "") :
    w.exec addTask = w := by
  rw [exec_addTask, if_pos h]

/-- Witness for C2 at a title of two blanks and a tab. -/
theorem addTask_blank_title_witness :
    jsTrim ({ World.initial with ui := { World.initial.ui with
        taskText := "  \t", taskDescription := "2%" } } : World).ui.taskText = "" ∧
    ({ World.initial with ui := { World.initial.ui with
        taskText := "  \t", taskDescription := "2%" } } : World).exec addTask =
      { World.initial with ui := { World.initial.ui with
        taskText := "  \t", taskDescription := "2%" } } :=
  ⟨by decide, addTask_blank_title _ (by decide)⟩

/-- Claim C3: `addTask` with a title that does not trim to the empty string issues
exactly one request, a POST to the base address whose body is the held title (as
typed), the held description and `completed: false`; when that POST resolves both
inputs become empty, the success message becomes non-empty, and `fetchTasks` is
called exactly once (one GET goes out), followed by the 3000 ms timer. -/
theorem addTask_valid_title (w : World) (h : jsTrim w.ui.taskText ≠ "") :
    w.exec addTask =
      { w with
        inflight := w.inflight ++ [.addTask w.ui.taskText w.ui.taskDescription],
        log := w.log ++ [.send ⟨.POST, apiUrl,
          some [("title", .str w.ui.taskText), ("description", .str w.ui.taskDescription),
                ("completed", .bool false)]⟩] } ∧
    ∀ (w' : World) (data : ResponseData),
      w'.exec ((Call.addTask w.ui.taskText w.ui.taskDescription).resume (.resolved data)) =
        { w' with
          ui := { w'.ui with taskText := "", taskDescription := "",
                             successMessage := "Task added successfully!" },
          inflight := w'.inflight ++ [.fetchTasks],
          timers := w'.timers ++ [w'.now + 3000],
          log := w'.log ++ [.send ⟨.GET, apiUrl, none⟩] ++ [.setTimeout 3000] } ∧
      (w'.exec ((Call.addTask w.ui.taskText w.ui.taskDescription).resume
        (.resolved data))).ui.successMessage ≠ "" := by
  refine ⟨?_, fun _ _ => ⟨rfl, confirmation_ne_empty⟩⟩
  rw [exec_addTask, if_neg h]
  rfl

/-- Witness for C3 at title "Buy milk", description "2%". -/
theorem addTask_valid_title_witness :
    jsTrim "Buy milk" ≠ "" ∧
    ({ World.initial with ui := { World.initial.ui with
        taskText := "Buy milk", taskDescription := "2%" } } : World).exec addTask =
      { World.initial with
        ui := { World.initial.ui with taskText := "Buy milk", taskDescription := "2%" },
        inflight := [.addTask "Buy milk" "2%"],
        log := [.send ⟨.POST, apiUrl,
          some [("title", .str "Buy milk"), ("description", .str "2%"),
                ("completed", .bool false)]⟩] } :=
  ⟨by decide,
    (addTask_valid_title
      { World.initial with ui := { World.initial.ui with
          taskText := "Buy milk", taskDescription := "2%" } } (by decide)).1⟩

/-- Claim C4 at a task whose id is the number 0: once the list [{id: 0, title: "a",
description: "b"}] is fetched and its Edit button clicked, the marker holds 0 and the
inputs hold "a" and "b"; the submit button then sends a POST (create) and no PUT. -/
theorem submit_after_edit_of_id_zero :
    (World.initial.run [.mount,
        .settle 0 (.resolved (.array [⟨.num false 0, "a", "b", false⟩])),
        .clickEdit 0]).ui.editingTask = .num false 0 ∧
    (World.initial.run [.mount,
        .settle 0 (.resolved (.array [⟨.num false 0, "a", "b", false⟩])),
        .clickEdit 0, .clickSubmit]).sent =
      [⟨.GET, apiUrl, none⟩,
       ⟨.POST, apiUrl, some [("title", .str "a"), ("description", .str "b"),
                              ("completed", .bool false)]⟩] := by
  decide

/-- Claim C5: `updateTask(taskId)` issues exactly one request, a PUT to base/taskId
whose body has the two fields title and description taken from the inputs; when it
resolves the marker becomes `null`, both inputs become empty, one GET goes out
(`fetchTasks` once), and nothing else changes (success message, tasks, timers). -/
theorem updateTask_spec (w : World) (taskId : JsVal) :
    w.exec (updateTask taskId) =
      { w with
        inflight := w.inflight ++ [.updateTask taskId w.ui.taskText w.ui.taskDescription],
        log := w.log ++ [.send ⟨.PUT, apiUrl ++ "/" ++ taskId.toStr,
          some [("title", .str w.ui.taskText),
                ("description", .str w.ui.taskDescription)]⟩] } ∧
    ∀ (w' : World) (data : ResponseData),
      w'.exec ((Call.updateTask taskId w.ui.taskText w.ui.taskDescription).resume
          (.resolved data)) =
        { w' with
          ui := { w'.ui with editingTask := .null, taskText := "", taskDescription := "" },
          inflight := w'.inflight ++ [.fetchTasks],
          log := w'.log ++ [.send ⟨.GET, apiUrl, none⟩] } :=
  ⟨rfl, fun _ _ => rfl⟩

/-- Claim C6: when the request of `addTask`, `updateTask`, `deleteTask` or
`deleteAllTasks` is rejected, the function logs one console error and does nothing
else: the five state cells, the in-flight requests (no GET, no retry) and the timers
are as before, and no exception leaves the function.  So a call whose request fails
before anything else happens leaves the world as it was before the call, but for
the request and the console error in the log. -/
theorem mutation_rejected (w : World) (taskId : JsVal) (title description : String) :
    (w.exec ((Call.addTask title description).resume .rejected) =
        { w with log := w.log ++ [.consoleError "Error adding task"] } ∧
     w.exec ((Call.updateTask taskId title description).resume .rejected) =
        { w with log := w.log ++ [.consoleError "Error updating task"] } ∧
     w.exec ((Call.deleteTask taskId).resume .rejected) =
        { w with log := w.log ++ [.consoleError "Error deleting task"] } ∧
     w.exec (Call.deleteAllTasks.resume .rejected) =
        { w with log := w.log ++ [.consoleError "Error deleting all tasks"] }) ∧
    ((w.exec addTask).step (.settle w.inflight.length .rejected) =
        (if jsTrim w.ui.taskText = "" then w
         else { w with log := w.log ++
            [.send (Call.addTask w.ui.taskText w.ui.taskDescription).request] ++
            [.consoleError "Error adding task"] }) ∧
     (w.exec (updateTask taskId)).step (.settle w.inflight.length .rejected) =
        { w with log := w.log ++
            [.send (Call.updateTask taskId w.ui.taskText w.ui.taskDescription).request] ++
            [.consoleError "Error updating task"] } ∧
     (w.exec (deleteTask taskId)).step (.settle w.inflight.length .rejected) =
        { w with log := w.log ++ [.send (Call.deleteTask taskId).request] ++
            [.consoleError "Error deleting task"] } ∧
     (w.exec deleteAllTasks).step (.settle w.inflight.length .rejected) =
        { w with log := w.log ++ [.send Call.deleteAllTasks.request] ++
            [.consoleError "Error deleting all tasks"] }) := by
  refine ⟨⟨rfl, rfl, rfl, rfl⟩, ?_, ?_, ?_, ?_⟩
  · rw [exec_addTask]
    split
    · exact settle_none w _
    · rw [suspend_then_settle]; rfl
  · exact (suspend_then_settle w _ _).trans rfl
  · exact (suspend_then_settle w _ _).trans rfl
  · exact (suspend_then_settle w _ _).trans rfl

/-- Claim C7: each mutating handler, when called, sends exactly its one request and
does nothing else (so no GET goes out before the request has settled; `addTask` with
a blank title sends nothing); and in every world, when the request of a suspended
call resolves, that turn of the event loop sends exactly one GET to the base
address, the call of `fetchTasks`, if the call is one of the four mutating ones, and
sends nothing if it is `fetchTasks` itself or if nothing is suspended there. -/
theorem refresh_after_mutation :
    (∀ w : World,
      w.exec addTask =
        if jsTrim w.ui.taskText = "" then w
        else
          { w with
            inflight := w.inflight ++ [.addTask w.ui.taskText w.ui.taskDescription],
            log := w.log ++ [.send ⟨.POST, apiUrl,
              some [("title", .str w.ui.taskText),
                    ("description", .str w.ui.taskDescription),
                    ("completed", .bool false)]⟩] }) ∧
    (∀ (w : World) (taskId : JsVal),
      w.exec (updateTask taskId) =
        { w with
          inflight := w.inflight ++ [.updateTask taskId w.ui.taskText w.ui.taskDescription],
          log := w.log ++ [.send ⟨.PUT, apiUrl ++ "/" ++ taskId.toStr,
            some [("title", .str w.ui.taskText),
                  ("description", .str w.ui.taskDescription)]⟩] }) ∧
    (∀ (w : World) (taskId : JsVal),
      w.exec (deleteTask taskId) =
        { w with
          inflight := w.inflight ++ [.deleteTask taskId],
          log := w.log ++ [.send ⟨.DELETE, apiUrl ++ "/" ++ taskId.toStr, none⟩] }) ∧
    (∀ w : World,
      w.exec deleteAllTasks =
        { w with
          inflight := w.inflight ++ [.deleteAllTasks],
          log := w.log ++ [.send ⟨.DELETE, apiUrl ++ "/all", none⟩] }) ∧
    (∀ (w : World) (i : Nat) (data : ResponseData),
      (w.step (.settle i (.resolved data))).sent =
        (match w.inflight.get? i with
          | none => w.sent
          | some .fetchTasks => w.sent
          | some _ => w.sent ++ [⟨.GET, apiUrl, none⟩]) ∧
      (w.step (.settle i (.resolved data))).inflight =
        (match w.inflight.get? i with
          | none => w.inflight
          | some .fetchTasks => w.inflight.eraseIdx i
          | some _ => w.inflight.eraseIdx i ++ [.fetchTasks])) := by
  refine ⟨fun w => ?_, fun _ _ => rfl, fun _ _ => rfl, fun _ => rfl, fun w i data => ?_⟩
  · rw [exec_addTask]
    split <;> rfl
  · simp only [World.step]
    cases w.inflight.get? i with
    | none => exact ⟨rfl, rfl⟩
    | some c =>
        cases c with
        | fetchTasks =>
            rcases data with _ | _
            · exact ⟨rfl, rfl⟩
            · refine ⟨?_, rfl⟩
              show sentIn (w.log ++ _) = _
              rw [sent_append]
              exact List.append_nil _
        | addTask _ _ =>
            refine ⟨?_, rfl⟩
            show sentIn (w.log ++ _ ++ _) = _
            rw [sent_append, sent_append]
            exact List.append_nil _
        | deleteTask _ => exact ⟨by show sentIn (w.log ++ _) = _; rw [sent_append]; rfl, rfl⟩
        | updateTask _ _ _ =>
            exact ⟨by show sentIn (w.log ++ _) = _; rw [sent_append]; rfl, rfl⟩
        | deleteAllTasks => exact ⟨by show sentIn (w.log ++ _) = _; rw [sent_append]; rfl, rfl⟩

/-- Claim C8 as stated fails: a Create that succeeds 2 seconds after another one has
its message cleared 1 second later, by the timer of the first. -/
theorem successMessage_cleared_early :
    ¬ ∀ (w : World) (index : Nat) (title description : String) (data : ResponseData)
        (events : List Event),
        w.inflight.get? index = some (.addTask title description) →
        ((w.step (.settle index (.resolved data))).run events).now < w.now + 3000 →
        ((w.step (.settle index (.resolved data))).run events).ui.successMessage ≠ "" := by
  intro h
  exact h
    (World.initial.run [.changeTitle "a", .clickSubmit, .settle 0 (.resolved (.other .object)),
      .advance 2000, .changeTitle "b", .clickSubmit])
    1 "b" "" (.other .object) [.advance 1000] (by decide) (by decide) (by decide)

/-- Claim C8, amended: when the POST of a Create resolves, the success message
becomes non-empty and one timer is scheduled 3 seconds ahead; nothing cancels that
timer, so the message is empty after the turn in which the clock reaches that
deadline; and if no timer pending at that moment is due before the deadline, the
message stays non-empty for as long as the clock is short of the deadline. -/
theorem successMessage_lifetime (w : World) (index : Nat) (title description : String)
    (data : ResponseData) (events : List Event) (ms : Nat)
    (hi : w.inflight.get? index = some (.addTask title description))
    (hbefore : ((w.step (.settle index (.resolved data))).run events).now < w.now + 3000) :
    (w.step (.settle index (.resolved data))).ui.successMessage ≠ "" ∧
    (w.step (.settle index (.resolved data))).timers = w.timers ++ [w.now + 3000] ∧
    (w.now + 3000 ≤ ((w.step (.settle index (.resolved data))).run events).now + ms →
      (((w.step (.settle index (.resolved data))).run events).advance ms).ui.successMessage
        = "") ∧
    ((∀ d ∈ w.timers, w.now + 3000 ≤ d) →
      ((w.step (.settle index (.resolved data))).run events).ui.successMessage ≠ "") := by
  rw [settle_addTask w index title description data hi] at hbefore ⊢
  refine ⟨confirmation_ne_empty, rfl, fun hreach => ?_, fun hclean => ?_⟩
  · exact advance_clears (w.now + 3000) _ ms
      (run_keeps_timer (w.now + 3000) events _
        (List.mem_append_right _ (List.mem_singleton.mpr rfl)) hbefore) hreach
  · refine run_keeps_message (w.now + 3000) events _ confirmation_ne_empty (fun d hd => ?_)
      (le_refl _) hbefore
    rcases List.mem_append.mp hd with hd | hd
    · exact hclean d hd
    · rw [List.mem_singleton.mp hd]

/-- Witness for C8 (amended): "Buy milk" is created from the initial state, the clock
moves 2999 ms and the message is still there; one more millisecond clears it. -/
theorem successMessage_lifetime_witness :
    ((World.initial.run [.changeTitle "Buy milk", .clickSubmit]).step
        (.settle 0 (.resolved (.other .object)))).ui.successMessage ≠ "" ∧
    ((((World.initial.run [.changeTitle "Buy milk", .clickSubmit]).step
        (.settle 0 (.resolved (.other .object)))).run
          [.advance 2999]).advance 1).ui.successMessage = "" ∧
    (((World.initial.run [.changeTitle "Buy milk", .clickSubmit]).step
        (.settle 0 (.resolved (.other .object)))).run
          [.advance 2999]).ui.successMessage ≠ "" :=
  have h := successMessage_lifetime
    (World.initial.run [.changeTitle "Buy milk", .clickSubmit]) 0 "Buy milk" ""
    (.other .object) [.advance 2999] 1 (by decide) (by decide)
  ⟨h.1, h.2.2.1 (by decide), h.2.2.2 (by decide)⟩

/-- Claim C9: along every run of events from the initial state the task collection
is the data of the most recent settled list response (the empty list when that
response was not an array or failed, or when none has settled yet); and a turn of
the event loop changes the task collection only if it is the settling of a GET of
`fetchTasks`. -/
theorem tasks_mirror_last_list_response :
    (∀ events : List Event,
      (World.initial.run events).ui.tasks = lastListed World.initial events []) ∧
    (∀ (w : World) (e : Event),
      (w.step e).ui.tasks =
        (match listCompletion w e with
          | some result => responseTasks result
          | none => w.ui.tasks)) :=
  ⟨fun events => run_tasks events World.initial, step_tasks⟩

/-- Claim C10 in edit mode: with task 1 being edited and the title input blanked, the
submit button sends a PUT whose title is the empty string. -/
theorem submit_blank_title_in_edit_mode :
    jsTrim "" = "" ∧
    (World.initial.run [.mount,
        .settle 0 (.resolved (.array [⟨.num false 1, "a", "b", false⟩])),
        .clickEdit 0, .changeTitle "", .clickSubmit]).sent =
      [⟨.GET, apiUrl, none⟩,
       ⟨.PUT, apiUrl ++ "/1", some [("title", .str ""), ("description", .str "b")]⟩] := by
  decide

end TodoApp
